import Mathlib

/-!
Verification development for the `warehouse-to-go` repository.

The repository copies tables declared as dbt sources from Snowflake into a
local DuckDB file.  The two code units the claims are about are embedded
shallowly below:

* `warehouse_to_go/extractor/manifest_parser.py` — `parse_manifest` and the
  plan-building loop (duplicated verbatim in `cli.py`, `extract`), modelled by
  `parse_manifest` and `buildPlan`;
* `warehouse_to_go/extractor/snowflake_extractor.py` — `_convert_df_for_duckdb`
  and `extract_tables`, modelled by `convert_df_for_duckdb` and
  `extract_tables`.

Python dictionaries are modelled as association lists in insertion order with
unique keys maintained by `dictInsert`; Python's `{**a, **b}` merge is
`dictMerge`.  External library behaviour (pandas, DuckDB, the Snowflake
connector, the file system) is modelled explicitly where the code's control
flow depends on it and abstracted by an outcome oracle where it does not.
-/

namespace WarehouseToGo

/-! ## Python dictionaries as insertion-ordered association lists -/

/-- Lookup in a Python dict modelled as an association list: the value of the
first pair whose key matches (dicts built by `dictInsert` have unique keys). -/
def dictGet {V : Type} (d : List (String × V)) (k : String) : Option V :=
  (d.find? (fun p => p.1 == k)).map (fun p => p.2)

/-- Python `d[k] = v`: overwrite the value in place if the key is present,
otherwise append the pair at the end (insertion order). -/
def dictInsert {V : Type} (d : List (String × V)) (k : String) (v : V) :
    List (String × V) :=
  if (d.find? (fun p => p.1 == k)).isSome then
    d.map (fun p => if p.1 = k then (k, v) else p)
  else
    d ++ [(k, v)]

/-- Removal of a key (used to model DuckDB `DROP TABLE IF EXISTS`). -/
def dictErase {V : Type} (d : List (String × V)) (k : String) :
    List (String × V) :=
  d.filter (fun p => p.1 != k)

/-- Python `{**a, **b}`: keys of `a` in order with values overridden by `b`,
then the keys of `b` not in `a` in their order. -/
def dictMerge {V : Type} (a b : List (String × V)) : List (String × V) :=
  b.foldl (fun acc p => dictInsert acc p.1 p.2) a

/-- The association list has pairwise distinct keys (true of every list that
models a Python dict). -/
def keysNodup {V : Type} (d : List (String × V)) : Prop :=
  d.Pairwise (fun p q => p.1 ≠ q.1)

/-! ## Manifest data model (`manifest_parser.py`) -/

/-- A metadata value of a dbt `meta` mapping.  Values can themselves be
mappings (`MetaVal.m`), which lets us express that merging never descends into
nested structures. -/
inductive MetaVal where
  | s : String → MetaVal
  | b : Bool → MetaVal
  | i : Int → MetaVal
  | m : List (String × MetaVal) → MetaVal

/-- A dbt `meta` mapping. -/
abbrev Meta := List (String × MetaVal)

/-- `TableConfig` dataclass of `manifest_parser.py`. -/
structure TableConfig where
  name : String
  identifier : String
  columns : Option (List String)
  meta : Meta

/-- `SourceConfig` dataclass of `manifest_parser.py`. -/
structure SourceConfig where
  database : String
  schema : String
  tables : List TableConfig
  meta : Meta

/-- One entry of the manifest's `sources` mapping, with exactly the fields
`parse_manifest` reads via `node.get`.  `none` models an absent key. -/
structure ManifestNode where
  source_name : Option String
  database : Option String
  schema : Option String
  name : Option String
  identifier : Option String
  columns : Option (List String)
  meta : Option Meta

/-- The source name `parse_manifest` reads: `node.get('source_name')`, with
Python falsiness collapsing both an absent key and an empty string to `""`. -/
def sourceNameOf (nd : ManifestNode) : String :=
  nd.source_name.getD ""

/-- The table name: `node.get('name', '')`. -/
def tableNameOf (nd : ManifestNode) : String :=
  nd.name.getD ""

/-- The `TableConfig` built at lines 61–66 of `manifest_parser.py` for a node
whose resolved table name is `tname`. -/
def tableConfigOf (nd : ManifestNode) (tname : String) : TableConfig :=
  { name := tname
    identifier := nd.identifier.getD tname
    columns := nd.columns
    meta := nd.meta.getD [] }

/-- The fresh `SourceConfig` created at lines 52–56 of `manifest_parser.py`
the first time a source name is seen. -/
def sourceConfigOf (nd : ManifestNode) : SourceConfig :=
  { database := nd.database.getD ""
    schema := nd.schema.getD ""
    tables := []
    meta := nd.meta.getD [] }

/-- Append a table to the `tables` list of the source stored under `sname`
(`sources[source_name].tables.append(table)`). -/
def appendTable (acc : List (String × SourceConfig)) (sname : String)
    (t : TableConfig) : List (String × SourceConfig) :=
  acc.map (fun p => if p.1 = sname then (p.1, { p.2 with tables := p.2.tables ++ [t] }) else p)

/-- The second half of the loop body (lines 58–67 of `manifest_parser.py`):
append a table config when the node's `name` resolves non-empty. -/
def parseStepTables (acc1 : List (String × SourceConfig)) (nd : ManifestNode) :
    List (String × SourceConfig) :=
  if tableNameOf nd = "" then acc1
  else appendTable acc1 (sourceNameOf nd) (tableConfigOf nd (tableNameOf nd))

/-- The body of the loop at lines 45–67 of `manifest_parser.py` for one
manifest node: skip nodes with a falsy `source_name`, create the source's
config on first sight, then append a table when `name` resolves non-empty. -/
def parseStep (acc : List (String × SourceConfig)) (nd : ManifestNode) :
    List (String × SourceConfig) :=
  if sourceNameOf nd = "" then acc
  else
    parseStepTables
      (if (dictGet acc (sourceNameOf nd)).isSome then acc
       else acc ++ [(sourceNameOf nd, sourceConfigOf nd)]) nd

/-- `ManifestParser.parse_manifest`, as a fold over the manifest's `sources`
entries in iteration order (JSON insertion order).  The node keys themselves
are never read, so the manifest is a list of nodes. -/
def parse_manifest (nodes : List ManifestNode) : List (String × SourceConfig) :=
  nodes.foldl parseStep []

/-! ## Plan building (`cli.py` lines 196–209, = `get_extraction_plan`) -/

/-- One table dict of the extraction plan. -/
structure PlanEntry where
  source_name : String
  table_name : String
  identifier : String
  columns : Option (List String)
  meta : Meta

/-- The merged metadata expression at line 208 of `cli.py` (and line 89 of
`manifest_parser.py`):
`{**source_config.meta, **table.meta} if table.meta else source_config.meta`. -/
def mergedMeta (sourceMeta tableMeta : Meta) : Meta :=
  if tableMeta.isEmpty then sourceMeta else dictMerge sourceMeta tableMeta

/-- The plan dict appended for one table (lines 203–209 of `cli.py`). -/
def planEntryFor (sname : String) (sc : SourceConfig) (t : TableConfig) :
    PlanEntry :=
  { source_name := sname
    table_name := t.name
    identifier := t.identifier
    columns := t.columns
    meta := mergedMeta sc.meta t.meta }

/-- Append a plan entry to the list stored under `key` in the plan dict. -/
def planAppend (plan : List (String × List PlanEntry)) (key : String)
    (e : PlanEntry) : List (String × List PlanEntry) :=
  plan.map (fun p => if p.1 = key then (p.1, p.2 ++ [e]) else p)

/-- The body of the plan-building loop for one source: ensure the group key
`f"{database}.{schema}"` exists in the plan dict, then append one entry per
table of the source. -/
def buildPlanStep (plan : List (String × List PlanEntry))
    (p : String × SourceConfig) : List (String × List PlanEntry) :=
  p.2.tables.foldl
    (fun pl t =>
      planAppend pl (p.2.database ++ "." ++ p.2.schema) (planEntryFor p.1 p.2 t))
    (if (dictGet plan (p.2.database ++ "." ++ p.2.schema)).isSome then plan
     else plan ++ [(p.2.database ++ "." ++ p.2.schema, [])])

/-- The plan-building loop of `cli.py` `extract` (lines 196–209), identical to
`ManifestParser.get_extraction_plan`: group the tables of each source under
the key `f"{database}.{schema}"`. -/
def buildPlan (sources : List (String × SourceConfig)) :
    List (String × List PlanEntry) :=
  sources.foldl buildPlanStep []

/-- The well-formedness the skipping logic of `parse_manifest` maintains: a
parsed source has a non-falsy name and only tables with non-empty names. -/
def goodSrc (p : String × SourceConfig) : Prop :=
  p.1 ≠ "" ∧ ∀ t ∈ p.2.tables, t.name ≠ ""

/-- A plan entry with a non-empty table name and source name. -/
def goodEntry (e : PlanEntry) : Prop :=
  e.table_name ≠ "" ∧ e.source_name ≠ ""

/-! ## pandas data frames and `_convert_df_for_duckdb`

A fetched batch is a list of named, dtyped columns.  Float payloads are
carried symbolically (no floating-point arithmetic happens anywhere in the
code under verification); the NaN sentinel is an explicit constructor. -/

/-- pandas column dtypes that occur in the pipeline.  `nullableInt64` is the
pandas extension dtype `Int64`; `objectDt` is `object`; every dtype the
pipeline does not inspect is `otherDt s`. -/
inductive Dtype where
  | int8 | int16 | int32 | int64
  | nullableInt64
  | float32 | float64
  | objectDt
  | otherDt : String → Dtype
  deriving DecidableEq, Repr

/-- A cell value.  `floatV` carries an opaque identifier for a non-NaN float;
`nan` is `np.nan`; `noneV` is Python `None`. -/
inductive PdVal where
  | intV : Int → PdVal
  | floatV : Int → PdVal
  | nan
  | noneV
  | strV : String → PdVal
  | otherV : String → PdVal
  deriving DecidableEq, Repr

/-- A pandas column: a name, a dtype, and the cells. -/
structure PdCol where
  name : String
  dtype : Dtype
  values : List PdVal
  deriving DecidableEq, Repr

/-- A pandas data frame, as its list of columns. -/
abbrev PdFrame := List PdCol

/-- Python `len(df)`: the number of rows (length of any column; `0` for a
frame with no columns). -/
def nRows (df : PdFrame) : Nat :=
  match df with
  | [] => 0
  | c :: _ => c.values.length

/-- Model of `df.replace({np.nan: None})` on one column, per pandas semantics:
a column that contains no NaN is returned unchanged; in a column that does
contain NaN, every NaN cell becomes `None` and, since `None` is not
representable in a numeric dtype, the column's dtype becomes `object`. -/
def replaceNanWithNone (c : PdCol) : PdCol :=
  if c.values.contains PdVal.nan then
    { c with dtype := Dtype.objectDt
             values := c.values.map (fun v => if v = PdVal.nan then PdVal.noneV else v) }
  else c

/-- Model of `df.select_dtypes(include=['int'])` membership.  pandas converts
the string `'int'` to the pair of dtypes `{int32, int64}` (its
`check_int_infer_dtype` special case for numpy's platform-dependent `int`)
and matches columns by `issubclass` of the column's scalar type against that
set; numpy scalar types are not subclasses of one another, so `int8` and
`int16` columns are *not* selected and are left untouched by the `astype`
loop. -/
def isIntDtype : Dtype → Bool
  | Dtype.int32 | Dtype.int64 => true
  | _ => false

/-- Model of `df.select_dtypes(include=['float'])` membership: pandas
converts the string `'float'` to `{float64, float32}` (the companion special
case to the integer one), so both numpy float dtypes are selected. -/
def isFloatDtype : Dtype → Bool
  | Dtype.float32 | Dtype.float64 => true
  | _ => false

/-- The per-column effect of the two `astype` loops of
`_convert_df_for_duckdb` (lines 96–102): the selected integer columns
(`int32`/`int64`) become the nullable `Int64` extension dtype, the selected
float columns become `float64`, anything else — including `int8`/`int16`
columns, which the `'int'` selector misses — is untouched.  `astype` does
not change the cells of the model (the payloads are value-preserving
widenings). -/
def astypeStep (c : PdCol) : PdCol :=
  if isIntDtype c.dtype then { c with dtype := Dtype.nullableInt64 }
  else if isFloatDtype c.dtype then { c with dtype := Dtype.float64 }
  else c

/-- `SnowflakeExtractor._convert_df_for_duckdb` (lines 91–108): first
`df.replace({np.nan: None})`, then the dtype conversions column by column.
The two `select_dtypes` loops act on disjoint columns of the replaced frame,
so together they are the per-column `astypeStep`. -/
def convert_df_for_duckdb (df : PdFrame) : PdFrame :=
  (df.map replaceNanWithNone).map astypeStep

/-- Modelled from the spec (for the refinement statement of claim C8, as
amended): the dtype each column should end with.  A column containing NaN
ends `object`; otherwise an `int32`/`int64` column ends `Int64`, a float
column ends `float64`, and any other column — `int8`/`int16` included —
keeps its dtype. -/
def specConvertDtype (c : PdCol) : Dtype :=
  if c.values.contains PdVal.nan then Dtype.objectDt
  else if isIntDtype c.dtype then Dtype.nullableInt64
  else if isFloatDtype c.dtype then Dtype.float64
  else c.dtype

/-- NaN-to-null normalization of the cells of one column, as the spec states
it. -/
def nanToNone (v : PdVal) : PdVal :=
  if v = PdVal.nan then PdVal.noneV else v

/-! ## The extractor (`extract_tables`, lines 110–221)

The remote warehouse, the parquet writer and the DuckDB engine are external
services; their per-table behaviour is supplied by a `TableOutcome` oracle
keyed by the fully qualified table name.  Everything the control flow of
`extract_tables` does with those outcomes — which exceptions are caught,
which propagate, what is written, logged and deleted — is modelled
explicitly. -/

/-- Python `key.split('.')` for the one-character separator `'.'`. -/
def splitDotAux : List Char → List Char → List String
  | [], acc => [String.mk acc.reverse]
  | c :: cs, acc =>
    if c = '.' then String.mk acc.reverse :: splitDotAux cs []
    else splitDotAux cs (c :: acc)

/-- Python `s.split('.')`: e.g. `"a.b"` ↦ `["a", "b"]`, `"ab"` ↦ `["ab"]`,
`"a..b"` ↦ `["a", "", "b"]`, `""` ↦ `[""]`. -/
def pySplitDot (s : String) : List String :=
  splitDotAux s.data []

/-- The fully qualified table name composed at line 154. -/
def fullTableName (database schema tableName : String) : String :=
  database ++ "." ++ schema ++ "." ++ tableName

/-- The query text composed by the f-string at lines 158–162, including the
f-string's own newlines and indentation.  It reads only the fully qualified
table name and `config.extract.row_limit`. -/
def buildQuery (full : String) (rowLimit : Nat) : String :=
  "\n                        SELECT *\n                        FROM identifier('"
    ++ full ++ "')\n                        LIMIT " ++ toString rowLimit
    ++ "\n                        "

/-- The query the extractor sends for one plan entry (lines 153–162): the
fully qualified name uses the entry's `table_name`; nothing else of the entry
is read. -/
def queryForEntry (database schema : String) (e : PlanEntry) (rowLimit : Nat) :
    String :=
  buildQuery (fullTableName database schema e.table_name) rowLimit

/-- Modelled from the spec (for the counterexample of claim C2): the query
form the claim states, `SELECT <columns> FROM <fully-qualified-table> LIMIT
<row_limit>` with the column list passed through unmodified and defaulting to
`*`. -/
def specQueryForEntry (database schema : String) (e : PlanEntry)
    (rowLimit : Nat) : String :=
  let cols := match e.columns with
    | some cs => String.intercalate ", " cs
    | none => "*"
  "SELECT " ++ cols ++ " FROM " ++ fullTableName database schema e.table_name
    ++ " LIMIT " ++ toString rowLimit

/-- External behaviour for one table, keyed by fully qualified name:
whether `cursor.execute` raises (`USE WAREHOUSE` or the query), the frame the
first `fetch_pandas_all()` returns, whether `df.to_parquet` raises, and
whether the fallback's DuckDB statements raise. -/
structure TableOutcome where
  queryFails : Bool
  fetched : PdFrame
  parquetFails : Bool
  fallbackCreateFails : Bool

/-- Per-table oracle for one run. -/
abbrev Oracle := String → TableOutcome

/-- The state of the local DuckDB engine: the catalog of tables (fully
qualified name ↦ contents) plus the attached databases and created schemas
(both idempotent). -/
structure DuckState where
  tables : List (String × PdFrame)
  attached : List String
  schemas : List String
  deriving DecidableEq, Repr

/-- Local scratch files: name ↦ content (`none` = created but empty, as
`NamedTemporaryFile` leaves it; `some df` = a parquet serialization of `df`).
`nextTmp` numbers fresh temporary names. -/
structure FsState where
  files : List (String × Option PdFrame)
  nextTmp : Nat
  deriving DecidableEq, Repr

/-- A per-table console line: the red `✗ {table}: Failed to extract` print
(line 170) or a green `✓ {table}: {rows} rows` print (lines 188 and 199). -/
inductive LogLine where
  | fail : String → LogLine
  | ok : String → Nat → LogLine
  deriving DecidableEq, Repr

/-- An exception escaping `extract_tables`. -/
inductive RunError where
  | valueUnpack
  | parquetWriteError
  | duckCreateError
  deriving DecidableEq, Repr

/-- The run's mutable state: DuckDB, scratch files, console lines, the
`schema_stats` dict (tables loaded, rows written, per `database.schema`), and
whether the DuckDB connection has been closed. -/
structure RunState where
  duck : DuckState
  fs : FsState
  log : List LogLine
  stats : List (String × (Nat × Nat))
  duckClosed : Bool
  deriving DecidableEq, Repr

/-- A fresh RunState over an empty database. -/
def initialRunState : RunState :=
  { duck := { tables := [], attached := [], schemas := [] }
    fs := { files := [], nextTmp := 0 }
    log := []
    stats := []
    duckClosed := false }

/-- Result of a step: the state reached, and `some e` when an exception is
propagating out of the step. -/
abbrev StepRes := RunState × Option RunError

/-- The name of the `n`-th temporary parquet file the run creates. -/
def tmpFileName (n : Nat) : String :=
  "tmp" ++ toString n ++ ".parquet"

/-- The direct write (lines 183–187): DuckDB executes
`CREATE OR REPLACE TABLE {full} AS SELECT * FROM table_name`.  The relation
reference is the literal name `table_name`: DuckDB resolves it against the
catalog first, and otherwise via replacement scan over the caller's Python
locals — which binds `table_name` to a `str`, not to a data frame, so the
scan fails.  Hence the statement succeeds only when the catalog happens to
hold a table literally called `table_name`, and it never reads the fetched
batch `df`. -/
def directWrite (duck : DuckState) (full : String) : Option DuckState :=
  match dictGet duck.tables "table_name" with
  | some rel => some { duck with tables := dictInsert duck.tables full rel }
  | none => none

/-- The write step for one fetched, converted batch (lines 182–201).  On
direct-write failure the fallback runs: `NamedTemporaryFile(delete=False)`
creates an empty scratch file, `df.to_parquet(tmp.name)` fills it — a raise
here happens *before* the `try/finally`, so the file is not cleaned up and
the exception propagates — then `DROP TABLE IF EXISTS` plus
`CREATE TABLE ... AS SELECT * FROM parquet_scan(tmp)` run inside a `try`
whose `finally` unlinks the file.  An engine failure of the fallback's
statements is modelled as the create raising after the drop took effect. -/
def writeStep (st : RunState) (full : String) (df : PdFrame)
    (o : TableOutcome) : StepRes :=
  match directWrite st.duck full with
  | some duck1 =>
    ({ st with duck := duck1, log := st.log ++ [LogLine.ok full (nRows df)] }, none)
  | none =>
    let tmp := tmpFileName st.fs.nextTmp
    let st1 := { st with
      fs := { files := dictInsert st.fs.files tmp none, nextTmp := st.fs.nextTmp + 1 } }
    if o.parquetFails then
      (st1, some RunError.parquetWriteError)
    else
      let st2 := { st1 with
        fs := { st1.fs with files := dictInsert st1.fs.files tmp (some df) } }
      if o.fallbackCreateFails then
        let st3 := { st2 with
          duck := { st2.duck with tables := dictErase st2.duck.tables full } }
        let st4 := { st3 with
          fs := { st3.fs with files := dictErase st3.fs.files tmp } }
        (st4, some RunError.duckCreateError)
      else
        let st3 := { st2 with
          duck := { st2.duck with
            tables := dictInsert (dictErase st2.duck.tables full) full df }
          log := st2.log ++ [LogLine.ok full (nRows df)] }
        let st4 := { st3 with
          fs := { st3.fs with files := dictErase st3.fs.files tmp } }
        (st4, none)

/-- Per-table processing (lines 152–211).  A raise of `cursor.execute` is
caught at lines 169–171: the red line is printed and the loop continues.  A
non-empty first fetch is converted and written; the batch loop then stops
(with a truthy `row_limit` it breaks, and with `row_limit = 0` the query's
`LIMIT 0` makes the first fetch empty).  An empty fetch breaks immediately
with nothing written or logged.  The `schema_stats` counters are bumped after
a successful write. -/
def processTable (oracle : Oracle) (database schema : String) (e : PlanEntry)
    (st : RunState) : StepRes :=
  let full := fullTableName database schema e.table_name
  let o := oracle full
  if o.queryFails then
    ({ st with log := st.log ++ [LogLine.fail full] }, none)
  else
    let df0 := o.fetched
    if nRows df0 = 0 then (st, none)
    else
      let df := convert_df_for_duckdb df0
      match writeStep st full df o with
      | (st1, some err) => (st1, some err)
      | (st1, none) =>
        let skey := database ++ "." ++ schema
        let st2 := { st1 with
          stats := st1.stats.map (fun p =>
            if p.1 = skey then (p.1, (p.2.1 + 1, p.2.2 + nRows df)) else p) }
        (st2, none)

/-- The inner table loop, stopping when an exception propagates. -/
def processTables (oracle : Oracle) (database schema : String) :
    List PlanEntry → RunState → StepRes
  | [], st => (st, none)
  | e :: es, st =>
    match processTable oracle database schema e st with
    | (st1, some err) => (st1, some err)
    | (st1, none) => processTables oracle database schema es st1

/-- Idempotent list insertion, for `ATTACH IF NOT EXISTS` and
`CREATE SCHEMA IF NOT EXISTS`. -/
def addIfAbsent (l : List String) (x : String) : List String :=
  if l.contains x then l else l ++ [x]

/-- Per-group setup (lines 138–149): unpack `database, schema =
db_schema.split('.')`, zero the group's `schema_stats` entry, attach the
database and create the schema.  A split into a number of parts other than
two raises `ValueError` (nothing catches it below the run level). -/
def processGroup (oracle : Oracle) (key : String) (entries : List PlanEntry)
    (st : RunState) : StepRes :=
  match pySplitDot key with
  | [database, schema] =>
    let skey := database ++ "." ++ schema
    let st1 := { st with
      stats := dictInsert st.stats skey (0, 0)
      duck := { st.duck with
        attached := addIfAbsent st.duck.attached database
        schemas := addIfAbsent st.duck.schemas skey } }
    processTables oracle database schema entries st1
  | _ => (st, some RunError.valueUnpack)

/-- The group loop over the plan. -/
def processGroups (oracle : Oracle) :
    List (String × List PlanEntry) → RunState → StepRes
  | [], st => (st, none)
  | g :: gs, st =>
    match processGroup oracle g.1 g.2 st with
    | (st1, some err) => (st1, some err)
    | (st1, none) => processGroups oracle gs st1

/-- `SnowflakeExtractor.extract_tables` (lines 110–221): run the group loop
inside `try/finally duckdb_conn.close()`; any exception still propagates to
the caller after the close. -/
def extract_tables (oracle : Oracle) (plan : List (String × List PlanEntry))
    (st : RunState) : StepRes :=
  let r := processGroups oracle plan st
  ({ r.1 with duckClosed := true }, r.2)

/-! ## Lemmas about the dictionary model -/

theorem dictGet_nil {V : Type} (k : String) :
    dictGet ([] : List (String × V)) k = none := rfl

theorem dictGet_cons {V : Type} (a : String) (v : V) (d : List (String × V))
    (k : String) :
    dictGet ((a, v) :: d) k = if a = k then some v else dictGet d k := by
  by_cases h : a = k <;> simp [dictGet, List.find?_cons, h]

theorem dictGet_append {V : Type} (d1 d2 : List (String × V)) (k : String) :
    dictGet (d1 ++ d2) k
      = match dictGet d1 k with
        | some v => some v
        | none => dictGet d2 k := by
  induction d1 with
  | nil => simp [dictGet_nil]
  | cons p d ih =>
    rcases p with ⟨a, v⟩
    by_cases h : a = k <;> simp [dictGet_cons, h, ih]

theorem dictGet_mapAt {V : Type} (d : List (String × V)) (k0 s : String)
    (f : V → V) :
    dictGet (d.map (fun p => if p.1 = k0 then (p.1, f p.2) else p)) s
      = if s = k0 then (dictGet d s).map f else dictGet d s := by
  induction d with
  | nil => by_cases h : s = k0 <;> simp [dictGet_nil, h]
  | cons p d ih =>
    rcases p with ⟨a, v⟩
    simp only [List.map_cons]
    by_cases h0 : a = k0
    · rw [if_pos h0]
      by_cases h1 : a = s
      · have hs : s = k0 := h1 ▸ h0
        rw [dictGet_cons, dictGet_cons, if_pos h1, if_pos h1, if_pos hs]
        rfl
      · rw [dictGet_cons, dictGet_cons, if_neg h1, if_neg h1, ih]
    · rw [if_neg h0]
      by_cases h1 : a = s
      · have hs : ¬ s = k0 := fun hh => h0 (h1 ▸ hh)
        rw [dictGet_cons, dictGet_cons, if_pos h1, if_pos h1, if_neg hs]
      · rw [dictGet_cons, dictGet_cons, if_neg h1, if_neg h1, ih]

theorem dictGet_replaceAt {V : Type} (d : List (String × V)) (k s : String)
    (v : V) :
    dictGet (d.map (fun p => if p.1 = k then (k, v) else p)) s
      = if s = k then (dictGet d s).map (fun _ => v) else dictGet d s := by
  induction d with
  | nil => by_cases h : s = k <;> simp [dictGet_nil, h]
  | cons p d ih =>
    rcases p with ⟨a, w⟩
    simp only [List.map_cons]
    by_cases h0 : a = k
    · rw [if_pos h0]
      by_cases h1 : a = s
      · have hs : s = k := h1 ▸ h0
        simp [dictGet_cons, h0, h1, hs]
      · have h1' : ¬ k = s := fun hh => h1 (h0.trans hh)
        rw [dictGet_cons, dictGet_cons, if_neg h1', if_neg h1, ih]
    · rw [if_neg h0]
      by_cases h1 : a = s
      · have hs : ¬ s = k := fun hh => h0 (h1 ▸ hh)
        rw [dictGet_cons, dictGet_cons, if_pos h1, if_pos h1, if_neg hs]
      · rw [dictGet_cons, dictGet_cons, if_neg h1, if_neg h1, ih]

theorem dictGet_eq_none_iff {V : Type} (d : List (String × V)) (k : String) :
    dictGet d k = none ↔ d.find? (fun p => p.1 == k) = none := by
  simp [dictGet]

theorem dictGet_insert {V : Type} (d : List (String × V)) (k k' : String)
    (v : V) :
    dictGet (dictInsert d k v) k' = if k' = k then some v else dictGet d k' := by
  unfold dictInsert
  by_cases hf : (d.find? (fun p => p.1 == k)).isSome
  · rw [if_pos hf, dictGet_replaceAt]
    by_cases hk : k' = k
    · subst hk
      rw [if_pos rfl, if_pos rfl]
      rcases Option.isSome_iff_exists.mp hf with ⟨p, hp⟩
      have hg : dictGet d k' = some p.2 := by simp [dictGet, hp]
      rw [hg]
      rfl
    · simp [hk]
  · rw [if_neg hf, dictGet_append]
    have hnone : dictGet d k = none := by
      rw [dictGet_eq_none_iff]
      exact Option.not_isSome_iff_eq_none.mp hf
    by_cases hk : k' = k
    · subst hk
      simp [hnone, dictGet_cons]
    · have hk2 : ¬ k = k' := fun hh => hk hh.symm
      rcases h : dictGet d k' with _ | w <;>
        simp [h, dictGet_cons, dictGet_nil, hk, hk2]

theorem dictGet_erase_self {V : Type} (d : List (String × V)) (k : String) :
    dictGet (dictErase d k) k = none := by
  induction d with
  | nil => rfl
  | cons p d ih =>
    rcases p with ⟨a, v⟩
    by_cases h : a = k
    · simpa [dictErase, h] using ih
    · simpa [dictErase, dictGet_cons, h] using ih

theorem dictGet_none_of_forall {V : Type} (d : List (String × V)) (k : String)
    (h : ∀ p ∈ d, p.1 ≠ k) : dictGet d k = none := by
  induction d with
  | nil => rfl
  | cons p d ih =>
    rcases p with ⟨a, v⟩
    have ha : a ≠ k := h (a, v) (List.mem_cons_self _ _)
    rw [dictGet_cons, if_neg ha]
    exact ih (fun q hq => h q (List.mem_cons_of_mem _ hq))

theorem dictGet_merge_none {V : Type} (a b : List (String × V)) (k : String)
    (h : dictGet b k = none) : dictGet (dictMerge a b) k = dictGet a k := by
  induction b generalizing a with
  | nil => rfl
  | cons p bs ih =>
    rcases p with ⟨kb, vb⟩
    rw [dictGet_cons] at h
    by_cases hk : kb = k
    · simp [hk] at h
    · have hbs : dictGet bs k = none := by simpa [hk] using h
      show dictGet (dictMerge (dictInsert a kb vb) bs) k = dictGet a k
      rw [ih _ hbs, dictGet_insert, if_neg (Ne.symm hk)]

theorem dictGet_merge_some {V : Type} (b : List (String × V)) (k : String)
    (v : V) :
    ∀ a : List (String × V), keysNodup b → dictGet b k = some v →
      dictGet (dictMerge a b) k = some v := by
  induction b with
  | nil => intro a _ h; simp [dictGet_nil] at h
  | cons p bs ih =>
    intro a hnd h
    rcases p with ⟨kb, vb⟩
    rcases List.pairwise_cons.mp hnd with ⟨hhead, htail⟩
    rw [dictGet_cons] at h
    by_cases hk : kb = k
    · have hv : v = vb := by
        have := h
        rw [if_pos hk] at this
        exact (Option.some_inj.mp this).symm
      have hbs : dictGet bs k = none := by
        apply dictGet_none_of_forall
        intro q hq
        exact fun hq1 => (hhead q hq) (hq1.trans hk.symm).symm
      show dictGet (dictMerge (dictInsert a kb vb) bs) k = some v
      rw [dictGet_merge_none _ _ _ hbs, dictGet_insert, if_pos hk.symm, hv]
    · have hbs : dictGet bs k = some v := by
        rw [if_neg hk] at h; exact h
      exact ih (dictInsert a kb vb) htail hbs

/-! ## Lemmas about type normalization -/

theorem map_nanToNone_of_not_contains (l : List PdVal)
    (h : l.contains PdVal.nan = false) : l.map nanToNone = l := by
  induction l with
  | nil => rfl
  | cons v vs ih =>
    rw [List.contains_cons, Bool.or_eq_false_iff] at h
    have hv : v ≠ PdVal.nan := by
      intro hv
      rw [hv] at h
      simp at h
    rw [List.map_cons, ih h.2]
    simp [nanToNone, hv]

theorem convertCol_spec (c : PdCol) :
    astypeStep (replaceNanWithNone c)
      = { name := c.name, dtype := specConvertDtype c
          values := c.values.map nanToNone } := by
  unfold replaceNanWithNone astypeStep specConvertDtype
  by_cases h : c.values.contains PdVal.nan
  · simp only [h, if_pos]
    simp [isIntDtype, isFloatDtype, nanToNone]
  · rw [if_neg h, if_neg h]
    rw [map_nanToNone_of_not_contains c.values (by simpa using h)]
    by_cases hi : isIntDtype c.dtype
    · simp [hi]
    · by_cases hf : isFloatDtype c.dtype <;> simp [hi, hf]

/-! ## Claim theorems -/

/-- Claim C2, counterexample.  The claim states that the query sent for an
extraction unit is `SELECT <columns> FROM <fully-qualified-table> LIMIT
<row_limit>` with the unit's column list passed through when present.  For
the concrete unit with column list `["zq"]` the query the code composes
differs from that form, and it is identical to the query composed for the
same unit with no column list at all: the column list never reaches the
query. -/
theorem c2_counterexample :
    queryForEntry "db" "sch"
        { source_name := "s", table_name := "t", identifier := "t"
          columns := some ["zq"], meta := [] } 10
      ≠ specQueryForEntry "db" "sch"
        { source_name := "s", table_name := "t", identifier := "t"
          columns := some ["zq"], meta := [] } 10
  ∧ queryForEntry "db" "sch"
        { source_name := "s", table_name := "t", identifier := "t"
          columns := some ["zq"], meta := [] } 10
      = queryForEntry "db" "sch"
        { source_name := "s", table_name := "t", identifier := "t"
          columns := none, meta := [] } 10 := by
  exact ⟨by decide, rfl⟩

/-- Claim C2 as amended: for every extraction unit the query sent to the
warehouse is `SELECT * FROM identifier('<database>.<schema>.<table_name>')
LIMIT <configured row_limit>` (with the f-string's surrounding whitespace);
the unit's column list has no effect on the query. -/
theorem c2_amended (db sch sn tn idf : String) (meta : Meta)
    (cols : Option (List String)) (limit : Nat) :
    queryForEntry db sch
        { source_name := sn, table_name := tn, identifier := idf
          columns := cols, meta := meta } limit
      = queryForEntry db sch
        { source_name := sn, table_name := tn, identifier := idf
          columns := none, meta := meta } limit
  ∧ queryForEntry db sch
        { source_name := sn, table_name := tn, identifier := idf
          columns := cols, meta := meta } limit
      = "\n                        SELECT *\n                        FROM identifier('"
          ++ fullTableName db sch tn ++ "')\n                        LIMIT "
          ++ toString limit ++ "\n                        " :=
  ⟨rfl, rfl⟩

/-- Claim C8, counterexample.  The claim states that integer-typed columns
become 64-bit nullable integers, that floating columns become 64-bit floats,
and that NaN sentinels become an explicit null marker.  Two concrete
one-column frames refute it: a `float64` column holding a value and a NaN
ends `object`-typed (the pandas `replace` of NaN by `None` upcasts the
column), not `float64`; and an `int8` column — what `fetch_pandas_all`
returns for a low-precision `NUMBER` — passes through unchanged, because
`select_dtypes(include=['int'])` selects only `int32`/`int64`, so it never
becomes `Int64`. -/
theorem c8_counterexample :
    ((convert_df_for_duckdb
        [{ name := "x", dtype := Dtype.float64
           values := [PdVal.floatV 1, PdVal.nan] }]).map PdCol.dtype
      = [Dtype.objectDt]
  ∧ Dtype.objectDt ≠ Dtype.float64)
  ∧ ((convert_df_for_duckdb
        [{ name := "y", dtype := Dtype.int8
           values := [PdVal.intV 1] }]).map PdCol.dtype
      = [Dtype.int8]
  ∧ Dtype.int8 ≠ Dtype.nullableInt64) := by
  exact ⟨⟨rfl, by decide⟩, ⟨rfl, by decide⟩⟩

/-- Claim C8 as amended: `_convert_df_for_duckdb` maps each column
independently; a column containing NaN has its NaN cells replaced by the
null marker and becomes `object`-typed, an `int32` or `int64` column becomes
the nullable 64-bit `Int64` (but `int8`/`int16` columns pass through, since
the `'int'` selector covers only `int32`/`int64`), a float column free of
NaN becomes `float64`, and every other column passes through unchanged —
with column names and cell values (up to NaN-to-null) preserved
throughout. -/
theorem c8_amended (df : PdFrame) :
    convert_df_for_duckdb df
      = df.map (fun c =>
          { name := c.name, dtype := specConvertDtype c
            values := c.values.map nanToNone }) := by
  unfold convert_df_for_duckdb
  rw [List.map_map]
  exact List.map_congr_left (fun c _ => convertCol_spec c)

/-- Claim C3 (code bug): the primary write path never reads the fetched
batch.  The direct write executes `CREATE OR REPLACE TABLE <full> AS SELECT *
FROM table_name`, and `table_name` resolves to the Python string local, not
to the data frame, so whenever the catalog holds no table literally called
`table_name` the direct write raises — and the table is then produced by the
parquet fallback, whose contents are the serialized batch. -/
theorem c3_direct_write_dead (st : RunState) (full : String) (df : PdFrame)
    (o : TableOutcome)
    (hcat : dictGet st.duck.tables "table_name" = none) :
    directWrite st.duck full = none
  ∧ (o.parquetFails = false → o.fallbackCreateFails = false →
      (writeStep st full df o).2 = none
    ∧ dictGet (writeStep st full df o).1.duck.tables full = some df
    ∧ (writeStep st full df o).1.fs.nextTmp = st.fs.nextTmp + 1) := by
  have hd : directWrite st.duck full = none := by
    unfold directWrite
    rw [hcat]
  refine ⟨hd, fun hp hf => ?_⟩
  unfold writeStep
  rw [hd]
  simp [hp, hf, dictGet_insert]

/-- Witness for C3 at a concrete input: a fresh empty database and a
one-row batch. -/
theorem c3_witness :
    dictGet initialRunState.duck.tables "table_name" = none
  ∧ (directWrite initialRunState.duck "d.s.t" = none
  ∧ ((false : Bool) = false → (false : Bool) = false →
      (writeStep initialRunState "d.s.t"
          [{ name := "c", dtype := Dtype.int64, values := [PdVal.intV 1] }]
          { queryFails := false
            fetched := [{ name := "c", dtype := Dtype.int64, values := [PdVal.intV 1] }]
            parquetFails := false, fallbackCreateFails := false }).2 = none
    ∧ dictGet (writeStep initialRunState "d.s.t"
          [{ name := "c", dtype := Dtype.int64, values := [PdVal.intV 1] }]
          { queryFails := false
            fetched := [{ name := "c", dtype := Dtype.int64, values := [PdVal.intV 1] }]
            parquetFails := false, fallbackCreateFails := false }).1.duck.tables "d.s.t"
        = some [{ name := "c", dtype := Dtype.int64, values := [PdVal.intV 1] }]
    ∧ (writeStep initialRunState "d.s.t"
          [{ name := "c", dtype := Dtype.int64, values := [PdVal.intV 1] }]
          { queryFails := false
            fetched := [{ name := "c", dtype := Dtype.int64, values := [PdVal.intV 1] }]
            parquetFails := false, fallbackCreateFails := false }).1.fs.nextTmp
        = initialRunState.fs.nextTmp + 1)) :=
  ⟨rfl, c3_direct_write_dead initialRunState "d.s.t"
    [{ name := "c", dtype := Dtype.int64, values := [PdVal.intV 1] }]
    { queryFails := false
      fetched := [{ name := "c", dtype := Dtype.int64, values := [PdVal.intV 1] }]
      parquetFails := false, fallbackCreateFails := false } rfl⟩

/-- Claim C10: the group key is unpacked by `database, schema =
db_schema.split('.')`; when the split does not yield exactly two parts the
`ValueError` is raised before any table of the group is processed (the state
is untouched) and nothing below the run level catches it — `extract_tables`
returns it to its caller after the `finally` closes the DuckDB connection. -/
theorem c10_group_key_unpack (oracle : Oracle) (key : String)
    (ts : List PlanEntry) (post : List (String × List PlanEntry))
    (st : RunState) (h : (pySplitDot key).length ≠ 2) :
    processGroup oracle key ts st = (st, some RunError.valueUnpack)
  ∧ extract_tables oracle ((key, ts) :: post) st
      = ({ st with duckClosed := true }, some RunError.valueUnpack) := by
  have hg : processGroup oracle key ts st = (st, some RunError.valueUnpack) := by
    unfold processGroup
    rcases hs : pySplitDot key with _ | ⟨a, _ | ⟨b, _ | ⟨c, l⟩⟩⟩
    · rfl
    · rfl
    · exact absurd (by rw [hs]; rfl) h
    · rfl
  refine ⟨hg, ?_⟩
  unfold extract_tables
  simp only [processGroups]
  rw [hg]

/-- Witness for C10 at the concrete dot-free key. -/
theorem c10_witness :
    ((pySplitDot "alldb").length ≠ 2)
  ∧ (processGroup
      (fun _ =>
        { queryFails := false, fetched := [],
          parquetFails := false, fallbackCreateFails := false })
      "alldb" [] initialRunState
      = (initialRunState, some RunError.valueUnpack)
  ∧ extract_tables
      (fun _ =>
        { queryFails := false, fetched := [],
          parquetFails := false, fallbackCreateFails := false })
      [("alldb", [])] initialRunState
      = ({ initialRunState with duckClosed := true }, some RunError.valueUnpack)) :=
  ⟨by decide, c10_group_key_unpack _ "alldb" [] [] initialRunState (by decide)⟩

/-- Claim C4, counterexample.  The claim states the fallback's temporary
file is deleted on every outcome, including a serialization failure.  On a
concrete run whose only table triggers the fallback and whose `to_parquet`
raises, the run aborts with the serialization error and the temporary file
(created empty by `NamedTemporaryFile`) still exists afterwards: the
`to_parquet` call sits before the `try/finally` that unlinks the file. -/
theorem c4_counterexample :
    (extract_tables
      (fun _ =>
        { queryFails := false,
          fetched := [{ name := "c", dtype := Dtype.int64, values := [PdVal.intV 1] }],
          parquetFails := true, fallbackCreateFails := false })
      [("db.sch",
        [{ source_name := "s", table_name := "t", identifier := "t",
           columns := none, meta := [] }])] initialRunState).2
      = some RunError.parquetWriteError
  ∧ dictGet (extract_tables
      (fun _ =>
        { queryFails := false,
          fetched := [{ name := "c", dtype := Dtype.int64, values := [PdVal.intV 1] }],
          parquetFails := true, fallbackCreateFails := false })
      [("db.sch",
        [{ source_name := "s", table_name := "t", identifier := "t",
           columns := none, meta := [] }])] initialRunState).1.fs.files
      "tmp0.parquet"
      = some none := by
  exact ⟨by decide, by decide⟩

/-- Claim C4 as amended: once the fallback's serialization to the temporary
file has succeeded, the file is unlinked by the `finally` on both outcomes of
the table-creation statements; when the serialization itself raises, the
temporary file is left on disk (empty) and the error propagates. -/
theorem c4_amended (st : RunState) (full : String) (df : PdFrame)
    (o : TableOutcome)
    (hcat : dictGet st.duck.tables "table_name" = none) :
    (o.parquetFails = false →
      dictGet (writeStep st full df o).1.fs.files (tmpFileName st.fs.nextTmp)
        = none)
  ∧ (o.parquetFails = true →
      dictGet (writeStep st full df o).1.fs.files (tmpFileName st.fs.nextTmp)
        = some none
    ∧ (writeStep st full df o).2 = some RunError.parquetWriteError) := by
  have hd : directWrite st.duck full = none := by
    unfold directWrite
    rw [hcat]
  constructor
  · intro hp
    unfold writeStep
    rw [hd]
    by_cases hf : o.fallbackCreateFails <;>
      simp [hp, hf, dictGet_erase_self]
  · intro hp
    unfold writeStep
    rw [hd]
    simp [hp, dictGet_insert]

/-- Witness for C4 (amended) at a concrete state, one per branch of the
hypothesis on the serialization flag. -/
theorem c4_witness :
    dictGet initialRunState.duck.tables "table_name" = none
  ∧ ((true : Bool) = true →
      dictGet (writeStep initialRunState "d.s.t" []
          { queryFails := false, fetched := [],
            parquetFails := true, fallbackCreateFails := false }).1.fs.files
          (tmpFileName initialRunState.fs.nextTmp)
        = some none
    ∧ (writeStep initialRunState "d.s.t" []
          { queryFails := false, fetched := [],
            parquetFails := true, fallbackCreateFails := false }).2
        = some RunError.parquetWriteError) :=
  ⟨rfl, (c4_amended initialRunState "d.s.t" []
    { queryFails := false, fetched := [],
      parquetFails := true, fallbackCreateFails := false } rfl).2⟩

/-- Claim C1, counterexample.  The claim states that a failure of the
parquet fallback is surfaced as that table's failure, after which processing
continues with the remaining tables.  On a concrete two-table plan whose
first table's fallback table-creation fails, the run instead aborts with the
error: no failure line is emitted for the first table and the second table is
never created. -/
theorem c1_counterexample :
    (extract_tables
      (fun full =>
        { queryFails := false,
          fetched := [{ name := "c", dtype := Dtype.int64, values := [PdVal.intV 1] }],
          parquetFails := false,
          fallbackCreateFails := full = "db.sch.t1" })
      [("db.sch",
        [{ source_name := "s", table_name := "t1", identifier := "t1",
           columns := none, meta := [] },
         { source_name := "s", table_name := "t2", identifier := "t2",
           columns := none, meta := [] }])] initialRunState).2
      = some RunError.duckCreateError
  ∧ (extract_tables
      (fun full =>
        { queryFails := false,
          fetched := [{ name := "c", dtype := Dtype.int64, values := [PdVal.intV 1] }],
          parquetFails := false,
          fallbackCreateFails := full = "db.sch.t1" })
      [("db.sch",
        [{ source_name := "s", table_name := "t1", identifier := "t1",
           columns := none, meta := [] },
         { source_name := "s", table_name := "t2", identifier := "t2",
           columns := none, meta := [] }])] initialRunState).1.log = []
  ∧ dictGet (extract_tables
      (fun full =>
        { queryFails := false,
          fetched := [{ name := "c", dtype := Dtype.int64, values := [PdVal.intV 1] }],
          parquetFails := false,
          fallbackCreateFails := full = "db.sch.t1" })
      [("db.sch",
        [{ source_name := "s", table_name := "t1", identifier := "t1",
           columns := none, meta := [] },
         { source_name := "s", table_name := "t2", identifier := "t2",
           columns := none, meta := [] }])] initialRunState).1.duck.tables
      "db.sch.t2"
      = none := by
  refine ⟨by decide, by decide, by decide⟩

/-- Claim C1 as amended: a direct-write failure does trigger the parquet
fallback, and when the fallback succeeds the table is created from the
serialized batch and the loop continues; but a failure of the fallback
itself (of the serialization, or of the table creation) propagates out of
the table loop and aborts the run — it is not recorded as that table's
failure (no failure line is printed) and the remaining tables of the plan
are not processed. -/
theorem c1_fallback_failure_aborts (oracle : Oracle) (db sch : String)
    (e : PlanEntry) (rest : List PlanEntry) (st : RunState)
    (hq : (oracle (fullTableName db sch e.table_name)).queryFails = false)
    (hnr : nRows (oracle (fullTableName db sch e.table_name)).fetched ≠ 0)
    (hcat : dictGet st.duck.tables "table_name" = none) :
    ((oracle (fullTableName db sch e.table_name)).parquetFails = false →
     (oracle (fullTableName db sch e.table_name)).fallbackCreateFails = false →
      (processTable oracle db sch e st).2 = none
    ∧ dictGet (processTable oracle db sch e st).1.duck.tables
        (fullTableName db sch e.table_name)
        = some (convert_df_for_duckdb (oracle (fullTableName db sch e.table_name)).fetched)
    ∧ (processTable oracle db sch e st).1.log
        = st.log ++ [LogLine.ok (fullTableName db sch e.table_name)
            (nRows (convert_df_for_duckdb (oracle (fullTableName db sch e.table_name)).fetched))])
  ∧ ((oracle (fullTableName db sch e.table_name)).parquetFails = false →
     (oracle (fullTableName db sch e.table_name)).fallbackCreateFails = true →
      processTables oracle db sch (e :: rest) st
        = ((processTable oracle db sch e st).1, some RunError.duckCreateError)
    ∧ (processTable oracle db sch e st).1.log = st.log)
  ∧ ((oracle (fullTableName db sch e.table_name)).parquetFails = true →
      processTables oracle db sch (e :: rest) st
        = ((processTable oracle db sch e st).1, some RunError.parquetWriteError)
    ∧ (processTable oracle db sch e st).1.log = st.log) := by
  have hd : directWrite st.duck (fullTableName db sch e.table_name) = none := by
    unfold directWrite
    rw [hcat]
  refine ⟨fun hp hf => ?_, fun hp hf => ?_, fun hp => ?_⟩
  · refine ⟨?_, ?_, ?_⟩ <;>
      simp [processTable, writeStep, hd, hq, hnr, hp, hf, dictGet_insert]
  · constructor
    · simp only [processTables]
      simp [processTable, writeStep, hd, hq, hnr, hp, hf]
    · simp [processTable, writeStep, hd, hq, hnr, hp, hf]
  · constructor
    · simp only [processTables]
      simp [processTable, writeStep, hd, hq, hnr, hp]
    · simp [processTable, writeStep, hd, hq, hnr, hp]

/-- Witness for C1 (amended) at a concrete one-table state whose fallback
table creation fails. -/
theorem c1_witness :
    ((fun _ : String =>
        ({ queryFails := false,
           fetched := [{ name := "c", dtype := Dtype.int64, values := [PdVal.intV 1] }],
           parquetFails := false, fallbackCreateFails := true } : TableOutcome))
        (fullTableName "d" "s" "t")).queryFails = false
  ∧ nRows ((fun _ : String =>
        ({ queryFails := false,
           fetched := [{ name := "c", dtype := Dtype.int64, values := [PdVal.intV 1] }],
           parquetFails := false, fallbackCreateFails := true } : TableOutcome))
        (fullTableName "d" "s" "t")).fetched ≠ 0
  ∧ dictGet initialRunState.duck.tables "table_name" = none
  ∧ (processTables (fun _ : String =>
        ({ queryFails := false,
           fetched := [{ name := "c", dtype := Dtype.int64, values := [PdVal.intV 1] }],
           parquetFails := false, fallbackCreateFails := true } : TableOutcome))
        "d" "s" [{ source_name := "s", table_name := "t", identifier := "t",
                   columns := none, meta := [] }] initialRunState).2
      = some RunError.duckCreateError := by
  refine ⟨rfl, by decide, rfl, ?_⟩
  have h := (c1_fallback_failure_aborts (fun _ : String =>
        ({ queryFails := false,
           fetched := [{ name := "c", dtype := Dtype.int64, values := [PdVal.intV 1] }],
           parquetFails := false, fallbackCreateFails := true } : TableOutcome))
      "d" "s"
      { source_name := "s", table_name := "t", identifier := "t",
        columns := none, meta := [] }
      [] initialRunState rfl (by decide) rfl).2.1 rfl rfl
  rw [h.1]

/-- Claim C5: a query-submission failure for table A is caught at the table
level: the failure line for A is printed, A is skipped with the state
otherwise untouched, and the remaining tables — of the same group and of the
groups after it — are processed exactly as they would have been without A.
In particular a single table's query failure never aborts the run. -/
theorem c5_query_failure_isolated (oracle : Oracle) (db sch key : String)
    (A : PlanEntry) (rest : List PlanEntry)
    (post : List (String × List PlanEntry)) (st : RunState)
    (hq : (oracle (fullTableName db sch A.table_name)).queryFails = true)
    (hkey : pySplitDot key = [db, sch]) :
    processTable oracle db sch A st
      = ({ st with
            log := st.log ++ [LogLine.fail (fullTableName db sch A.table_name)] },
         none)
  ∧ processTables oracle db sch (A :: rest) st
      = processTables oracle db sch rest
          { st with
            log := st.log ++ [LogLine.fail (fullTableName db sch A.table_name)] }
  ∧ extract_tables oracle ((key, A :: rest) :: post) st
      = extract_tables oracle ((key, rest) :: post)
          { st with
            log := st.log ++ [LogLine.fail (fullTableName db sch A.table_name)] } := by
  have h1 : ∀ s : RunState,
      processTable oracle db sch A s
        = ({ s with
              log := s.log ++ [LogLine.fail (fullTableName db sch A.table_name)] },
           none) := by
    intro s
    unfold processTable
    simp [hq]
  have h2 : ∀ s : RunState,
      processTables oracle db sch (A :: rest) s
        = processTables oracle db sch rest
            { s with
              log := s.log ++ [LogLine.fail (fullTableName db sch A.table_name)] } := by
    intro s
    simp only [processTables]
    rw [h1 s]
  refine ⟨h1 st, h2 st, ?_⟩
  simp only [extract_tables, processGroups, processGroup, hkey, h2]

/-- Witness for C5 at a concrete two-group plan whose first table's query
fails. -/
theorem c5_witness :
    ((fun full =>
        if full = "d1.s1.a" then
          ({ queryFails := true, fetched := [],
             parquetFails := false, fallbackCreateFails := false } : TableOutcome)
        else
          { queryFails := false,
            fetched := [{ name := "c", dtype := Dtype.int64, values := [PdVal.intV 1] }],
            parquetFails := false, fallbackCreateFails := false })
      (fullTableName "d1" "s1" "a")).queryFails = true
  ∧ pySplitDot "d1.s1" = ["d1", "s1"]
  ∧ extract_tables
      (fun full =>
        if full = "d1.s1.a" then
          ({ queryFails := true, fetched := [],
             parquetFails := false, fallbackCreateFails := false } : TableOutcome)
        else
          { queryFails := false,
            fetched := [{ name := "c", dtype := Dtype.int64, values := [PdVal.intV 1] }],
            parquetFails := false, fallbackCreateFails := false })
      (("d1.s1",
        [{ source_name := "s", table_name := "a", identifier := "a",
           columns := none, meta := [] }]) ::
       [("d2.s2",
        [{ source_name := "s", table_name := "b", identifier := "b",
           columns := none, meta := [] }])]) initialRunState
      = extract_tables
      (fun full =>
        if full = "d1.s1.a" then
          ({ queryFails := true, fetched := [],
             parquetFails := false, fallbackCreateFails := false } : TableOutcome)
        else
          { queryFails := false,
            fetched := [{ name := "c", dtype := Dtype.int64, values := [PdVal.intV 1] }],
            parquetFails := false, fallbackCreateFails := false })
      (("d1.s1", []) ::
       [("d2.s2",
        [{ source_name := "s", table_name := "b", identifier := "b",
           columns := none, meta := [] }])])
      { initialRunState with
        log := initialRunState.log
          ++ [LogLine.fail (fullTableName "d1" "s1" "a")] } := by
  refine ⟨by decide, by decide, ?_⟩
  exact (c5_query_failure_isolated
    (fun full =>
        if full = "d1.s1.a" then
          ({ queryFails := true, fetched := [],
             parquetFails := false, fallbackCreateFails := false } : TableOutcome)
        else
          { queryFails := false,
            fetched := [{ name := "c", dtype := Dtype.int64, values := [PdVal.intV 1] }],
            parquetFails := false, fallbackCreateFails := false })
    "d1" "s1" "d1.s1"
    { source_name := "s", table_name := "a", identifier := "a",
      columns := none, meta := [] }
    []
    [("d2.s2",
      [{ source_name := "s", table_name := "b", identifier := "b",
         columns := none, meta := [] }])]
    initialRunState (by decide) (by decide)).2.2

/-- Claim C6: the extraction unit's merged meta is the table's meta overlaid
on the source's meta.  For a table with empty meta the source's meta is used
verbatim (the very list, unchanged); every key the table's meta carries keeps
the table's value in the merged result (so on a conflict the table wins); and
every other key resolves to the source's value.  Values move whole — even
when a value is itself a nested mapping it is taken from one side intact, so
no deep merge occurs. -/
theorem c6_meta_overlay (sn : String) (sc : SourceConfig) (tc : TableConfig)
    (h : keysNodup tc.meta) :
    (tc.meta = [] → (planEntryFor sn sc tc).meta = sc.meta)
  ∧ (∀ k v, dictGet tc.meta k = some v →
      dictGet (planEntryFor sn sc tc).meta k = some v)
  ∧ (∀ k, dictGet tc.meta k = none →
      dictGet (planEntryFor sn sc tc).meta k = dictGet sc.meta k) := by
  refine ⟨?_, ?_, ?_⟩
  · intro h0
    simp [planEntryFor, mergedMeta, h0]
  · intro k v hk
    show dictGet (mergedMeta sc.meta tc.meta) k = some v
    rcases hm : tc.meta with _ | ⟨p, rest⟩
    · rw [hm] at hk
      simp [dictGet_nil] at hk
    · rw [hm] at h hk
      simp only [mergedMeta, List.isEmpty_cons]
      rw [if_neg (by simp)]
      exact dictGet_merge_some _ k v sc.meta h hk
  · intro k hk
    show dictGet (mergedMeta sc.meta tc.meta) k = dictGet sc.meta k
    rcases hm : tc.meta with _ | ⟨p, rest⟩
    · simp [mergedMeta]
    · rw [hm] at hk
      simp only [mergedMeta, List.isEmpty_cons]
      rw [if_neg (by simp)]
      exact dictGet_merge_none _ _ _ hk

/-- Witness for C6 at the spec's own example: source meta
`{team: sales}` and table meta `{team: eng, pii: true}`. -/
theorem c6_witness :
    keysNodup [("team", MetaVal.s "eng"), ("pii", MetaVal.b true)]
  ∧ (([("team", MetaVal.s "eng"), ("pii", MetaVal.b true)] : Meta) = [] →
      (planEntryFor "raw_crm"
        { database := "analytics", schema := "crm", tables := [],
          meta := [("team", MetaVal.s "sales")] }
        { name := "customers", identifier := "customers", columns := none,
          meta := [("team", MetaVal.s "eng"), ("pii", MetaVal.b true)] }).meta
        = [("team", MetaVal.s "sales")])
  ∧ (∀ k v,
      dictGet [("team", MetaVal.s "eng"), ("pii", MetaVal.b true)] k = some v →
      dictGet (planEntryFor "raw_crm"
        { database := "analytics", schema := "crm", tables := [],
          meta := [("team", MetaVal.s "sales")] }
        { name := "customers", identifier := "customers", columns := none,
          meta := [("team", MetaVal.s "eng"), ("pii", MetaVal.b true)] }).meta k
        = some v)
  ∧ (∀ k,
      dictGet [("team", MetaVal.s "eng"), ("pii", MetaVal.b true)] k = none →
      dictGet (planEntryFor "raw_crm"
        { database := "analytics", schema := "crm", tables := [],
          meta := [("team", MetaVal.s "sales")] }
        { name := "customers", identifier := "customers", columns := none,
          meta := [("team", MetaVal.s "eng"), ("pii", MetaVal.b true)] }).meta k
        = dictGet [("team", MetaVal.s "sales")] k) := by
  have hnd : keysNodup [("team", MetaVal.s "eng"), ("pii", MetaVal.b true)] := by
    unfold keysNodup
    refine List.Pairwise.cons ?_ (List.Pairwise.cons ?_ List.Pairwise.nil)
    · intro q hq
      rcases List.mem_singleton.mp hq with rfl
      decide
    · intro q hq
      simp at hq
  exact ⟨hnd, c6_meta_overlay "raw_crm"
    { database := "analytics", schema := "crm", tables := [],
      meta := [("team", MetaVal.s "sales")] }
    { name := "customers", identifier := "customers", columns := none,
      meta := [("team", MetaVal.s "eng"), ("pii", MetaVal.b true)] } hnd⟩

/-! ## Lemmas about the manifest parser and plan builder -/

theorem appendTable_good (acc : List (String × SourceConfig)) (sname : String)
    (t : TableConfig) (ht : t.name ≠ "") (h : ∀ p ∈ acc, goodSrc p) :
    ∀ p ∈ appendTable acc sname t, goodSrc p := by
  intro p hp
  unfold appendTable at hp
  rcases List.mem_map.mp hp with ⟨q, hq, hfq⟩
  by_cases hqk : q.1 = sname
  · rw [if_pos hqk] at hfq
    subst hfq
    refine ⟨(h q hq).1, ?_⟩
    intro t2 ht2
    rcases List.mem_append.mp ht2 with h1 | h2
    · exact (h q hq).2 t2 h1
    · rcases List.mem_singleton.mp h2 with rfl
      exact ht
  · rw [if_neg hqk] at hfq
    subst hfq
    exact h q hq

theorem parseStep_good (acc : List (String × SourceConfig)) (nd : ManifestNode)
    (h : ∀ p ∈ acc, goodSrc p) : ∀ p ∈ parseStep acc nd, goodSrc p := by
  unfold parseStep
  by_cases hs : sourceNameOf nd = ""
  · rw [if_pos hs]
    exact h
  · rw [if_neg hs]
    have hbase : ∀ q ∈ (if (dictGet acc (sourceNameOf nd)).isSome then acc
        else acc ++ [(sourceNameOf nd, sourceConfigOf nd)]), goodSrc q := by
      by_cases hd : (dictGet acc (sourceNameOf nd)).isSome
      · rw [if_pos hd]
        exact h
      · rw [if_neg hd]
        intro q hq
        rcases List.mem_append.mp hq with h1 | h2
        · exact h q h1
        · rcases List.mem_singleton.mp h2 with rfl
          refine ⟨hs, ?_⟩
          intro t2 ht2
          simp [sourceConfigOf] at ht2
    unfold parseStepTables
    by_cases htn : tableNameOf nd = ""
    · rw [if_pos htn]
      exact hbase
    · rw [if_neg htn]
      exact appendTable_good _ _ _ htn hbase

theorem parse_manifest_good (nodes : List ManifestNode) :
    ∀ p ∈ parse_manifest nodes, goodSrc p := by
  unfold parse_manifest
  have haux : ∀ (ns : List ManifestNode) (acc : List (String × SourceConfig)),
      (∀ p ∈ acc, goodSrc p) → ∀ p ∈ ns.foldl parseStep acc, goodSrc p := by
    intro ns
    induction ns with
    | nil =>
      intro acc h
      simpa using h
    | cons nd ns2 ih =>
      intro acc h
      simp only [List.foldl_cons]
      exact ih _ (parseStep_good acc nd h)
  exact haux nodes [] (by intro p hp; simp at hp)

theorem planAppend_good (pl : List (String × List PlanEntry)) (key : String)
    (e : PlanEntry) (he : goodEntry e)
    (h : ∀ g ∈ pl, ∀ x ∈ g.2, goodEntry x) :
    ∀ g ∈ planAppend pl key e, ∀ x ∈ g.2, goodEntry x := by
  intro g hg x hx
  unfold planAppend at hg
  rcases List.mem_map.mp hg with ⟨q, hq, hfq⟩
  by_cases hqk : q.1 = key
  · rw [if_pos hqk] at hfq
    subst hfq
    rcases List.mem_append.mp hx with h1 | h2
    · exact h q hq x h1
    · rcases List.mem_singleton.mp h2 with rfl
      exact he
  · rw [if_neg hqk] at hfq
    subst hfq
    exact h q hq x hx

theorem foldPlanEntries_good (sn : String) (sc : SourceConfig) (key : String)
    (hsn : sn ≠ "") :
    ∀ (ts : List TableConfig), (∀ t ∈ ts, t.name ≠ "") →
    ∀ pl0 : List (String × List PlanEntry),
      (∀ g ∈ pl0, ∀ x ∈ g.2, goodEntry x) →
    ∀ g ∈ ts.foldl (fun pl t => planAppend pl key (planEntryFor sn sc t)) pl0,
      ∀ x ∈ g.2, goodEntry x := by
  intro ts
  induction ts with
  | nil =>
    intro _ pl0 h
    simpa using h
  | cons t ts2 ih =>
    intro hts pl0 h
    simp only [List.foldl_cons]
    refine ih (fun t2 ht2 => hts t2 (List.mem_cons_of_mem _ ht2)) _ ?_
    exact planAppend_good _ key _
      ⟨hts t (List.mem_cons_self _ _), hsn⟩ h

theorem buildPlanStep_good (pl : List (String × List PlanEntry))
    (p : String × SourceConfig) (hp : goodSrc p)
    (h : ∀ g ∈ pl, ∀ x ∈ g.2, goodEntry x) :
    ∀ g ∈ buildPlanStep pl p, ∀ x ∈ g.2, goodEntry x := by
  unfold buildPlanStep
  refine foldPlanEntries_good p.1 p.2 _ hp.1 p.2.tables hp.2 _ ?_
  by_cases hd : (dictGet pl (p.2.database ++ "." ++ p.2.schema)).isSome
  · rw [if_pos hd]
    exact h
  · rw [if_neg hd]
    intro g hg x hx
    rcases List.mem_append.mp hg with h1 | h2
    · exact h g h1 x hx
    · rcases List.mem_singleton.mp h2 with rfl
      simp at hx

theorem buildPlan_good (sources : List (String × SourceConfig))
    (hs : ∀ p ∈ sources, goodSrc p) :
    ∀ g ∈ buildPlan sources, ∀ x ∈ g.2, goodEntry x := by
  unfold buildPlan
  have haux : ∀ (srcs : List (String × SourceConfig))
      (acc : List (String × List PlanEntry)), (∀ p ∈ srcs, goodSrc p) →
      (∀ g ∈ acc, ∀ x ∈ g.2, goodEntry x) →
      ∀ g ∈ srcs.foldl buildPlanStep acc, ∀ x ∈ g.2, goodEntry x := by
    intro srcs
    induction srcs with
    | nil =>
      intro acc _ hacc
      simpa using hacc
    | cons p ps ih =>
      intro acc hsrc hacc
      simp only [List.foldl_cons]
      exact ih _ (fun q hq => hsrc q (List.mem_cons_of_mem _ hq))
        (buildPlanStep_good acc p (hsrc p (List.mem_cons_self _ _)) hacc)
  exact haux sources [] hs (by intro g hg; simp at hg)

/-- Claim C7, counterexample.  The claim states the plan builder requires
every unit's database and schema to be non-empty.  The parser accepts a node
with no `database` and no `schema` key (they default to the empty string) and
the builder emits a unit for it under the group key `"."` — the concatenation
of the two empty names — so no such requirement exists. -/
theorem c7_counterexample :
    buildPlan (parse_manifest
      [{ source_name := some "s", database := none, schema := none,
         name := some "t", identifier := none, columns := none, meta := none }])
      = [(".",
          [{ source_name := "s", table_name := "t", identifier := "t",
             columns := none, meta := [] }])] := rfl

/-- Claim C7 as amended: the plan builder performs no validation of
`database` and `schema` (absent or empty values pass straight through into
the group key, as the concrete empty-name manifest shows); what it does do is
skip malformed entries — every unit of every plan built from a parsed
manifest has a non-empty table name and a non-empty source name, because
entries missing `source_name` and tables resolving to an empty name produce
no unit. -/
theorem c7_skip_only_no_validation :
    (∀ (nodes : List ManifestNode) (g : String × List PlanEntry) (e : PlanEntry),
      g ∈ buildPlan (parse_manifest nodes) → e ∈ g.2 →
      e.table_name ≠ "" ∧ e.source_name ≠ "")
  ∧ buildPlan (parse_manifest
      [{ source_name := some "s2", database := none, schema := none,
         name := some "t2", identifier := none, columns := none, meta := none }])
      = [(".",
          [{ source_name := "s2", table_name := "t2", identifier := "t2",
             columns := none, meta := [] }])] := by
  constructor
  · intro nodes g e hg he
    exact buildPlan_good _ (parse_manifest_good nodes) g hg e he
  · rfl

/-- Witness for C7 (amended) at a concrete manifest and unit. -/
theorem c7_witness :
    ((".", [(⟨"s2", "t2", "t2", none, []⟩ : PlanEntry)])
      ∈ buildPlan (parse_manifest
        [⟨some "s2", none, none, some "t2", none, none, none⟩]))
  ∧ ((⟨"s2", "t2", "t2", none, []⟩ : PlanEntry)
      ∈ [(⟨"s2", "t2", "t2", none, []⟩ : PlanEntry)])
  ∧ ((⟨"s2", "t2", "t2", none, []⟩ : PlanEntry).table_name ≠ ""
    ∧ (⟨"s2", "t2", "t2", none, []⟩ : PlanEntry).source_name ≠ "") := by
  have m1 : ((".", [(⟨"s2", "t2", "t2", none, []⟩ : PlanEntry)])
      ∈ buildPlan (parse_manifest
        [⟨some "s2", none, none, some "t2", none, none, none⟩])) := by
    show _ ∈ [(".", [(⟨"s2", "t2", "t2", none, []⟩ : PlanEntry)])]
    exact List.mem_singleton.mpr rfl
  have m2 : ((⟨"s2", "t2", "t2", none, []⟩ : PlanEntry)
      ∈ [(⟨"s2", "t2", "t2", none, []⟩ : PlanEntry)]) :=
    List.mem_singleton.mpr rfl
  exact ⟨m1, m2, c7_skip_only_no_validation.1 _ _ _ m1 m2⟩

theorem parseStepTables_get (acc1 : List (String × SourceConfig))
    (nd : ManifestNode) (s : String) :
    dictGet (parseStepTables acc1 nd) s
      = if tableNameOf nd = "" then dictGet acc1 s
        else if s = sourceNameOf nd then
          (dictGet acc1 s).map (fun v =>
            { v with tables := v.tables ++ [tableConfigOf nd (tableNameOf nd)] })
        else dictGet acc1 s := by
  unfold parseStepTables
  by_cases ht : tableNameOf nd = ""
  · rw [if_pos ht, if_pos ht]
  · rw [if_neg ht, if_neg ht]
    unfold appendTable
    exact dictGet_mapAt acc1 (sourceNameOf nd) s
      (fun v => { v with tables := v.tables ++ [tableConfigOf nd (tableNameOf nd)] })

theorem parseStep_preserves (acc : List (String × SourceConfig))
    (nd : ManifestNode) (s : String) (sc : SourceConfig)
    (h : dictGet acc s = some sc) :
    ∃ sc2, dictGet (parseStep acc nd) s = some sc2
      ∧ sc2.database = sc.database ∧ sc2.schema = sc.schema
      ∧ sc2.meta = sc.meta := by
  unfold parseStep
  by_cases hs : sourceNameOf nd = ""
  · rw [if_pos hs]
    exact ⟨sc, h, rfl, rfl, rfl⟩
  · rw [if_neg hs]
    have hbase : dictGet (if (dictGet acc (sourceNameOf nd)).isSome then acc
        else acc ++ [(sourceNameOf nd, sourceConfigOf nd)]) s = some sc := by
      by_cases hd : (dictGet acc (sourceNameOf nd)).isSome
      · rw [if_pos hd]
        exact h
      · rw [if_neg hd, dictGet_append, h]
    rw [parseStepTables_get]
    by_cases ht : tableNameOf nd = ""
    · rw [if_pos ht]
      exact ⟨sc, hbase, rfl, rfl, rfl⟩
    · rw [if_neg ht]
      by_cases hss : s = sourceNameOf nd
      · rw [if_pos hss, hbase]
        exact ⟨_, rfl, rfl, rfl, rfl⟩
      · rw [if_neg hss]
        exact ⟨sc, hbase, rfl, rfl, rfl⟩

theorem parseStep_get_none (acc : List (String × SourceConfig))
    (nd : ManifestNode) (s : String)
    (h : dictGet (parseStep acc nd) s = none) : dictGet acc s = none := by
  rcases hacc : dictGet acc s with _ | sc
  · rfl
  · rcases parseStep_preserves acc nd s sc hacc with ⟨sc2, h2, _⟩
    rw [h2] at h
    cases h

theorem parseStep_creates (acc : List (String × SourceConfig))
    (nd : ManifestNode) (s : String) (sc0 : SourceConfig)
    (hnone : dictGet acc s = none)
    (h : dictGet (parseStep acc nd) s = some sc0) :
    sourceNameOf nd = s ∧ s ≠ ""
  ∧ sc0.database = nd.database.getD "" ∧ sc0.schema = nd.schema.getD ""
  ∧ sc0.meta = nd.meta.getD [] := by
  unfold parseStep at h
  by_cases hs : sourceNameOf nd = ""
  · rw [if_pos hs, hnone] at h
    cases h
  · rw [if_neg hs, parseStepTables_get] at h
    by_cases hd : (dictGet acc (sourceNameOf nd)).isSome
    · rw [if_pos hd] at h
      by_cases ht : tableNameOf nd = ""
      · rw [if_pos ht, hnone] at h
        cases h
      · rw [if_neg ht] at h
        by_cases hss : s = sourceNameOf nd
        · rw [if_pos hss, hnone] at h
          cases h
        · rw [if_neg hss, hnone] at h
          cases h
    · rw [if_neg hd] at h
      have hsingle : dictGet (acc ++ [(sourceNameOf nd, sourceConfigOf nd)]) s
          = if sourceNameOf nd = s then some (sourceConfigOf nd) else none := by
        rw [dictGet_append, hnone, dictGet_cons]
        by_cases hx : sourceNameOf nd = s
        · rw [if_pos hx, if_pos hx]
        · rw [if_neg hx, if_neg hx, dictGet_nil]
      rw [hsingle] at h
      by_cases hx : sourceNameOf nd = s
      · rw [if_pos hx] at h
        have hsne : s ≠ "" := fun hse => hs (hx.trans hse)
        by_cases ht : tableNameOf nd = ""
        · rw [if_pos ht] at h
          rcases Option.some_inj.mp h with rfl
          exact ⟨hx, hsne, rfl, rfl, rfl⟩
        · rw [if_neg ht] at h
          by_cases hss : s = sourceNameOf nd
          · rw [if_pos hss] at h
            rcases Option.some_inj.mp h with rfl
            exact ⟨hx, hsne, rfl, rfl, rfl⟩
          · exact absurd hx.symm hss
      · rw [if_neg hx] at h
        by_cases ht : tableNameOf nd = ""
        · rw [if_pos ht] at h
          cases h
        · rw [if_neg ht] at h
          by_cases hss : s = sourceNameOf nd
          · rw [if_pos hss] at h
            cases h
          · rw [if_neg hss] at h
            cases h

theorem parseStep_creates_isSome (acc : List (String × SourceConfig))
    (nd : ManifestNode) (hs : sourceNameOf nd ≠ "") :
    (dictGet (parseStep acc nd) (sourceNameOf nd)).isSome := by
  unfold parseStep
  rw [if_neg hs, parseStepTables_get]
  have hbase : (dictGet (if (dictGet acc (sourceNameOf nd)).isSome then acc
      else acc ++ [(sourceNameOf nd, sourceConfigOf nd)]) (sourceNameOf nd)).isSome := by
    by_cases hd : (dictGet acc (sourceNameOf nd)).isSome
    · rw [if_pos hd]
      exact hd
    · rw [if_neg hd]
      have hnone : dictGet acc (sourceNameOf nd) = none :=
        Option.not_isSome_iff_eq_none.mp hd
      rw [dictGet_append, hnone]
      simp [dictGet_cons]
  by_cases ht : tableNameOf nd = ""
  · rw [if_pos ht]
    exact hbase
  · rw [if_neg ht, if_pos rfl]
    simpa using hbase

theorem parse_fold_first (nodes : List ManifestNode) :
    ∀ (acc : List (String × SourceConfig)) (s : String) (sc : SourceConfig),
      dictGet (nodes.foldl parseStep acc) s = some sc →
      (∃ sc0, dictGet acc s = some sc0 ∧ sc.database = sc0.database
        ∧ sc.schema = sc0.schema ∧ sc.meta = sc0.meta)
    ∨ (dictGet acc s = none ∧ s ≠ ""
        ∧ ∃ nd, nodes.find? (fun n => sourceNameOf n == s) = some nd
          ∧ sc.database = nd.database.getD "" ∧ sc.schema = nd.schema.getD ""
          ∧ sc.meta = nd.meta.getD []) := by
  induction nodes with
  | nil =>
    intro acc s sc h
    exact Or.inl ⟨sc, h, rfl, rfl, rfl⟩
  | cons nd ns ih =>
    intro acc s sc h
    rw [List.foldl_cons] at h
    rcases ih (parseStep acc nd) s sc h with
      ⟨sc0, hsc0, hdb, hsch, hmeta⟩ | ⟨hnone, hs, nd2, hfind, hdb, hsch, hmeta⟩
    · rcases Option.eq_none_or_eq_some (dictGet acc s) with hacc | ⟨sc1, hacc⟩
      · rcases parseStep_creates acc nd s sc0 hacc hsc0 with
          ⟨hsn, hsne, hdb0, hsch0, hmeta0⟩
        refine Or.inr ⟨hacc, hsne, nd, ?_,
          hdb.trans hdb0, hsch.trans hsch0, hmeta.trans hmeta0⟩
        exact List.find?_cons_of_pos ns (beq_iff_eq.mpr hsn)
      · rcases parseStep_preserves acc nd s sc1 hacc with
          ⟨sc2, hsc2, hdb1, hsch1, hmeta1⟩
        have he : sc0 = sc2 := by
          rw [hsc0] at hsc2
          exact Option.some_inj.mp hsc2
        exact Or.inl ⟨sc1, hacc,
          by rw [hdb, he, hdb1], by rw [hsch, he, hsch1],
          by rw [hmeta, he, hmeta1]⟩
    · have hacc : dictGet acc s = none := parseStep_get_none acc nd s hnone
      have hpred : ¬ ((fun n => sourceNameOf n == s) nd = true) := by
        intro hb
        have hsn : sourceNameOf nd = s := beq_iff_eq.mp hb
        have hne : sourceNameOf nd ≠ "" := by
          rw [hsn]
          exact hs
        have hsome := parseStep_creates_isSome acc nd hne
        rw [hsn, hnone] at hsome
        cases hsome
      refine Or.inr ⟨hacc, hs, nd2, ?_, hdb, hsch, hmeta⟩
      exact (List.find?_cons_of_neg ns hpred).trans hfind

/-- Claim C9: when several manifest entries share a `source_name`, the
source's `database`, `schema` and source-level `meta` all come from the first
such entry encountered; later entries only contribute tables.  Since every
manifest `sources` entry is a table node, the source-level meta used in
merging is precisely the meta of the source's first table node. -/
theorem c9_first_entry_wins (nodes : List ManifestNode) (s : String)
    (sc : SourceConfig) (h : dictGet (parse_manifest nodes) s = some sc) :
    s ≠ "" ∧ ∃ nd, nodes.find? (fun n => sourceNameOf n == s) = some nd
      ∧ sc.database = nd.database.getD "" ∧ sc.schema = nd.schema.getD ""
      ∧ sc.meta = nd.meta.getD [] := by
  rcases parse_fold_first nodes [] s sc h with
    ⟨sc0, h0, _⟩ | ⟨_, hs, nd, hf, h1, h2, h3⟩
  · rw [dictGet_nil] at h0
    cases h0
  · exact ⟨hs, nd, hf, h1, h2, h3⟩

/-- Witness for C9 at a concrete manifest with two entries for the same
source name carrying different database, schema and meta fields: the parsed
source carries the first entry's fields. -/
theorem c9_witness :
    dictGet (parse_manifest
      [⟨some "s", some "DB1", some "SC1", some "t1", none, none,
        some [("k", MetaVal.s "v1")]⟩,
       ⟨some "s", some "DB2", some "SC2", some "t2", none, none,
        some [("k", MetaVal.s "v2")]⟩]) "s"
      = some { database := "DB1", schema := "SC1",
               tables := [⟨"t1", "t1", none, [("k", MetaVal.s "v1")]⟩,
                          ⟨"t2", "t2", none, [("k", MetaVal.s "v2")]⟩],
               meta := [("k", MetaVal.s "v1")] }
  ∧ ("s" ≠ ""
    ∧ ∃ nd, ([⟨some "s", some "DB1", some "SC1", some "t1", none, none,
          some [("k", MetaVal.s "v1")]⟩,
        ⟨some "s", some "DB2", some "SC2", some "t2", none, none,
          some [("k", MetaVal.s "v2")]⟩] : List ManifestNode).find?
            (fun n => sourceNameOf n == "s") = some nd
      ∧ ({ database := "DB1", schema := "SC1",
           tables := [⟨"t1", "t1", none, [("k", MetaVal.s "v1")]⟩,
                      ⟨"t2", "t2", none, [("k", MetaVal.s "v2")]⟩],
           meta := [("k", MetaVal.s "v1")] } : SourceConfig).database
          = nd.database.getD ""
      ∧ ({ database := "DB1", schema := "SC1",
           tables := [⟨"t1", "t1", none, [("k", MetaVal.s "v1")]⟩,
                      ⟨"t2", "t2", none, [("k", MetaVal.s "v2")]⟩],
           meta := [("k", MetaVal.s "v1")] } : SourceConfig).schema
          = nd.schema.getD ""
      ∧ ({ database := "DB1", schema := "SC1",
           tables := [⟨"t1", "t1", none, [("k", MetaVal.s "v1")]⟩,
                      ⟨"t2", "t2", none, [("k", MetaVal.s "v2")]⟩],
           meta := [("k", MetaVal.s "v1")] } : SourceConfig).meta
          = nd.meta.getD []) :=
  ⟨rfl, c9_first_entry_wins _ "s" _ rfl⟩

end WarehouseToGo
